import Mathlib

/-!
# Verification of the external-process engine driver (`strategies.py`)

A shallow embedding of the move-search driver in `strategies.py`:
the effective time-control computation, the request-document
serialization, the response-document parsing, the move-token
interpretation (with resignation detection and the SAN→UCI notation
fallback), the per-instance move counter, and the notification relay
(`FillerEngine`).  The chess library (`python-chess`) is an external
collaborator; its `push_san`/`push_uci` entry points are taken as
parameters of the embedding.  Python strings are embedded as `List
Char` (a Python `str` is a sequence of code points).
-/

namespace LichessBot

/-- A Python string, modelled as its sequence of characters. -/
abbrev PyStr := List Char

/-- Python `int()` applied to a numeric value: truncation toward zero.
Numeric inputs are modelled as rationals. -/
def pyInt (q : ℚ) : ℤ := if 0 ≤ q then ⌊q⌋ else ⌈q⌉

/-- The two shapes of the `time_limit` argument of `Engine.search`
(`strategies.py` lines 124-133).  `fixed` is a budget carrying a `time`
attribute (the `try` branch); `clock` is a budget carrying per-side
clock and increment attributes, for which reading `.time` raises and
the `except` branch runs. -/
inductive TimeLimit where
  | fixed (time : ℚ)
  | clock (white_clock white_inc black_clock black_inc : ℚ)

/-- The effective time control computed by `Engine.search`
(`strategies.py` lines 124-133).  `turn = true` models
`board.turn == chess.WHITE`.

```python
try:
    time_control = time_limit.time * 1000
except Exception:
    if board.turn == chess.WHITE:
        time_control = max(int(time_limit.white_clock * 10) +
                           int(time_limit.white_inc) * 1000 - 300, 96)
    else:
        time_control = max(int(time_limit.black_clock * 10) +
                           int(time_limit.black_inc) * 1000 - 300, 96)
```
-/
def timeControl (turn : Bool) : TimeLimit → ℚ
  | .fixed t => t * 1000
  | .clock wc wi bc bi =>
    if turn then ((max (pyInt (wc * 10) + pyInt wi * 1000 - 300) 96 : ℤ) : ℚ)
    else ((max (pyInt (bc * 10) + pyInt bi * 1000 - 300) 96 : ℤ) : ℚ)

/-- Python `s.strip()`: remove whitespace from both ends. -/
def pyStrip (s : PyStr) : PyStr :=
  ((s.dropWhile Char.isWhitespace).reverse.dropWhile Char.isWhitespace).reverse

/-- The fixed textual mark of a "played move" status line, 15
characters; character offset 16 is the text after the following
space. -/
def playedMark : PyStr := "COMPUTER PLAYED".data

/-- One backward step of the scan in `Engine.search`
(`strategies.py` lines 145-146):

```python
move = next((out[i][16:].strip() for i in range(
    len(out) - 1, 0, -1) if out[i].startswith('COMPUTER PLAYED')), None)
```

`scanFrom out k` examines indices `k, k-1, ..., 1` in that order —
index `0` is excluded, exactly as `range(len(out) - 1, 0, -1)` stops
before `0`.  `s.startswith(p)` is `p.isPrefixOf s`; `s[16:]` is
`s.drop 16`; `.strip()` is `pyStrip`. -/
def scanFrom (out : List PyStr) : Nat → Option PyStr
  | 0 => none
  | i + 1 =>
    if playedMark.isPrefixOf (out.getD (i + 1) []) then
      some (pyStrip ((out.getD (i + 1) []).drop 16))
    else scanFrom out i

/-- The move token extracted from the response lines by `Engine.search`
(`strategies.py` lines 145-146): the scan starts at the last index
`len(out) - 1`; the result is `none` when no line matches. -/
def parseMove (out : List PyStr) : Option PyStr :=
  scanFrom out (out.length - 1)

/-- `chess.engine.PlayResult`, restricted to the fields the driver
sets: `PlayResult(move, ponder)` and the `resigned` flag. -/
structure PlayResult (Move : Type) where
  move : Option Move
  ponder : Option Move
  resigned : Bool

/-- The failure modes of the token-interpretation step
(`strategies.py` lines 148-153), both instances of the spec's
`ProtocolParseError` (§7):
* `noMoveLine`: `move` is `None` (no played line was found) and
  `board.push_san(None)` raises `TypeError`, which propagates;
* `illegalMove`: both `board.push_san(move)` and `board.push_uci(move)`
  raise `ValueError`, and the second error propagates. -/
inductive DriverError where
  | noMoveLine
  | illegalMove
  deriving DecidableEq

/-- Interpretation of the parsed move token
(`strategies.py` lines 148-153):

```python
if move == 'RESIGN':
    return PlayResult(None, None, resigned=True)
try:
    return PlayResult(board.push_san(move), None)
except ValueError:
    return PlayResult(board.push_uci(move), None)
```

The chess library is external; `push_san`/`push_uci` are taken as
functional parameters: `some (m, b')` models "the call parses the
token, pushes move `m`, and leaves the board in state `b'`"; `none`
models "the call raises `ValueError` and leaves the board
unchanged". -/
def applyToken {Board Move : Type}
    (push_san push_uci : Board → PyStr → Option (Move × Board))
    (board : Board) :
    Option PyStr → Except DriverError (PlayResult Move × Board)
  | none => .error .noMoveLine
  | some t =>
    if t = "RESIGN".data then .ok (⟨none, none, true⟩, board)
    else
      match push_san board t with
      | some (m, b) => .ok (⟨some m, none, false⟩, b)
      | none =>
        match push_uci board t with
        | some (m, b) => .ok (⟨some m, none, false⟩, b)
        | none => .error .illegalMove

/-- The response-handling tail of `Engine.search`
(`strategies.py` lines 145-153): extract the move token from the
response lines, then interpret it against the board. -/
def searchInterpret {Board Move : Type}
    (push_san push_uci : Board → PyStr → Option (Move × Board))
    (board : Board) (out : List PyStr) :
    Except DriverError (PlayResult Move × Board) :=
  applyToken push_san push_uci board (parseMove out)

/-- The request document written by `Engine.search`
(`strategies.py` lines 135-139), with the rendered time control and the
position serialization (`board.fen(en_passant="fen")`) as parameters:

```python
f.write(
    f'setoption time_limit {time_control}\n'
    'setoption table_size 69696983\n'
    f'go {board.fen(en_passant="fen")}\nquit')
```
-/
def requestDoc (tc fen : PyStr) : PyStr :=
  "setoption time_limit ".data ++ tc ++ "\n".data ++
    "setoption table_size 69696983\n".data ++
    "go ".data ++ fen ++ "\nquit".data

/-- The four directive lines of the request document, in order. -/
def requestLines (tc fen : PyStr) : List PyStr :=
  ["setoption time_limit ".data ++ tc,
   "setoption table_size 69696983".data,
   "go ".data ++ fen,
   "quit".data]

/-- Modelled from the spec (§6): a request document of "exactly four
newline-terminated lines" — every line, the final `quit` directive
included, followed by a newline. -/
def requestDocAllTerminated (tc fen : PyStr) : PyStr :=
  ((requestLines tc fen).map (fun l => l ++ "\n".data)).flatten

/-- The mutable state of an `Engine` instance: the per-driver move
sequence counter `self.move`. -/
structure EngineState where
  move : Nat

/-- `Engine.__init__` (`strategies.py` lines 114-116) sets
`self.move = 0`. -/
def engineInit : EngineState := ⟨0⟩

/-- `os.path.join('temp', f'input-{self.move}.txt')`
(`strategies.py` line 120); the f-string renders the counter in
decimal, i.e. `Nat.toDigits 10`. -/
def fileIn (s : EngineState) : PyStr :=
  "temp/input-".data ++ Nat.toDigits 10 s.move ++ ".txt".data

/-- `os.path.join('temp', f'output-{self.move}.txt')`
(`strategies.py` line 121). -/
def fileOut (s : EngineState) : PyStr :=
  "temp/output-".data ++ Nat.toDigits 10 s.move ++ ".txt".data

/-- The file-allocation step of `Engine.search`
(`strategies.py` lines 120-122): derive the input/output file names
from the counter, then execute `self.move += 1`. -/
def searchStep (s : EngineState) : (PyStr × PyStr) × EngineState :=
  ((fileIn s, fileOut s), ⟨s.move + 1⟩)

/-- Numeric value of a decimal digit character. -/
def digitVal (c : Char) : Nat := c.toNat - 48

/-- Decimal value of a digit string; left inverse of `Nat.toDigits 10`,
used to prove the file names of distinct counters distinct. -/
def digitsVal (l : List Char) : Nat :=
  l.foldl (fun a c => a * 10 + digitVal c) 0

/-- A Python attribute as seen by a caller of the `FillerEngine` relay
(`strategies.py` lines 15-38): either a plain data attribute (not
callable) or a bound method. -/
inductive PyAttr (Arg Res : Type) where
  | value
  | method (f : List Arg → Res)

/-- Calling an attribute: calling a data attribute (such as the `id`
dict) raises `TypeError: object is not callable`; calling a method runs
it. -/
inductive PyCallError where
  | notCallable
  deriving DecidableEq

/-- Python attribute lookup on a `FillerEngine` instance.  Ordinary
lookup finds, in order, the instance attributes set in `__init__`
(`id`, `name`, `main_engine` — data, not callable) and then the
attributes of the class and its bases (`FillerEngine.__init__`,
`FillerEngine.__getattr__`, and everything inherited from `object`,
such as `__repr__` or `__class__`); the inherited set is
interpreter-defined, so class-level lookup is the parameter
`classAttrs` (`none` = ordinary lookup fails for that name).  Only
when ordinary lookup fails does Python call `__getattr__`, which
returns the forwarding closure

```python
def method(*args, **kwargs):
    return main_engine.notify(method_name, *args, **kwargs)
```

`notify` is the owner's hook, taken as a functional parameter. -/
def fillerGetattr {Arg Res : Type}
    (classAttrs : PyStr → Option (PyAttr Arg Res))
    (notify : PyStr → List Arg → Res) (attr : PyStr) : PyAttr Arg Res :=
  if attr = "id".data then .value
  else if attr = "name".data then .value
  else if attr = "main_engine".data then .value
  else
    match classAttrs attr with
    | some a => a
    | none => .method (fun args => notify attr args)

/-- A concrete class-attribute table for witnesses: the two methods
the `FillerEngine` class body defines, with behavior that performs no
`notify` call (running `__init__` or `__getattr__` forwards nothing);
every other name misses.  The result type is the `traceNotify` call
trace, so "no forward" shows up as the empty trace. -/
def classAttrsStub : PyStr → Option (PyAttr Nat (List (PyStr × List Nat))) :=
  fun a =>
    if a = "__init__".data then some (.method (fun _ => []))
    else if a = "__getattr__".data then some (.method (fun _ => []))
    else none

/-- Invoke an attribute of a `FillerEngine` with an argument list. -/
def callPyAttr {Arg Res : Type} :
    PyAttr Arg Res → List Arg → Except PyCallError Res
  | .value, _ => .error .notCallable
  | .method f, args => .ok (f args)

/-- A `notify` implementation that records its calls: the result is
the list of `(method_name, args)` pairs received, so "exactly one call
to `notify`" is visible in the result. -/
def traceNotify {Arg : Type} : PyStr → List Arg → List (PyStr × List Arg) :=
  fun n args => [(n, args)]

/-- A stand-in for the chess library's `push_san` used in witnesses: on
any board (a ply counter) it accepts the SAN spelling `Nf3`, pushes the
knight move and advances the board one ply. -/
def sanStub : Nat → PyStr → Option (PyStr × Nat) :=
  fun b t => if t = "Nf3".data then some ("g1f3".data, b + 1) else none

/-- A stand-in for the chess library's `push_uci` used in witnesses: it
accepts the UCI spelling `g1f3` of the same move. -/
def uciStub : Nat → PyStr → Option (PyStr × Nat) :=
  fun b t => if t = "g1f3".data then some ("g1f3".data, b + 1) else none

lemma pyInt_intCast (n : ℤ) : pyInt (n : ℚ) = n := by
  unfold pyInt
  split <;> simp

lemma pyInt_intCast_mul_ten (c : ℤ) : pyInt ((c : ℚ) * 10) = c * 10 := by
  have h : ((c : ℚ) * 10) = ((c * 10 : ℤ) : ℚ) := by push_cast; ring
  rw [h, pyInt_intCast]

/-- **C1 counterexample.** The claim's formula
`max(c×10 + i×1000 − 300, 96)` is false off the integers: at
`white_clock = 100.05` (= 2001/20) seconds with zero increment, the
code truncates — `int(100.05 * 10) = int(1000.5) = 1000` — and yields
`700`, while the claim's exact arithmetic yields `700.5`. -/
theorem timeControl_clock_counterexample :
    timeControl true (.clock (2001 / 20 : ℚ) 0 0 0) = 700 ∧
    max ((2001 / 20 : ℚ) * 10 + 0 * 1000 - 300) 96 = 1401 / 2 ∧
    (700 : ℚ) ≠ 1401 / 2 := by
  refine ⟨?_, ?_, by norm_num⟩
  · have h0 : ((2001 / 20 : ℚ) * 10) = 2001 / 2 := by norm_num
    have h1 : pyInt (2001 / 2 : ℚ) = 1000 := by
      unfold pyInt
      rw [if_pos (by norm_num)]
      rw [Int.floor_eq_iff]
      constructor <;> norm_num
    have h2 : pyInt (0 : ℚ) = 0 := by unfold pyInt; simp
    simp only [timeControl, if_true, h0, h1, h2]
    norm_num
  · rw [max_eq_left (by norm_num)]
    norm_num

/-- **C1 amended.** For every clock-plus-increment budget the
effective time control is
`max(int(c*10) + int(i)*1000 - 300, 96)` — the claim's formula with
Python's `int()` truncation toward zero applied as in the code — where
`c`, `i` are the clock and increment of the position's side to move
(white's fields when white is to move, black's when black is to move).
On integer-valued clocks and increments this coincides with the
claim's exact formula `max(c*10 + i*1000 - 300, 96)`, and for
arbitrary (even negative) rational inputs the result is never below
`96`. -/
theorem timeControl_clock_amended :
    (∀ wc wi bc bi : ℚ,
      timeControl true (.clock wc wi bc bi) =
        ((max (pyInt (wc * 10) + pyInt wi * 1000 - 300) 96 : ℤ) : ℚ)) ∧
    (∀ wc wi bc bi : ℚ,
      timeControl false (.clock wc wi bc bi) =
        ((max (pyInt (bc * 10) + pyInt bi * 1000 - 300) 96 : ℤ) : ℚ)) ∧
    (∀ c i bc bi : ℤ,
      timeControl true (.clock (c : ℚ) (i : ℚ) (bc : ℚ) (bi : ℚ)) =
        ((max (c * 10 + i * 1000 - 300) 96 : ℤ) : ℚ)) ∧
    (∀ wc wi c i : ℤ,
      timeControl false (.clock (wc : ℚ) (wi : ℚ) (c : ℚ) (i : ℚ)) =
        ((max (c * 10 + i * 1000 - 300) 96 : ℤ) : ℚ)) ∧
    (∀ (turn : Bool) (wc wi bc bi : ℚ),
      (96 : ℚ) ≤ timeControl turn (.clock wc wi bc bi)) := by
  refine ⟨?_, ?_, ?_, ?_, ?_⟩
  · intro wc wi bc bi
    simp [timeControl]
  · intro wc wi bc bi
    simp [timeControl]
  · intro c i bc bi
    simp [timeControl, pyInt_intCast, pyInt_intCast_mul_ten]
  · intro wc wi c i
    simp [timeControl, pyInt_intCast, pyInt_intCast_mul_ten]
  · intro turn wc wi bc bi
    cases turn <;>
      · simp only [timeControl, if_true, if_false, Bool.false_eq_true]
        exact_mod_cast le_max_right _ _

/-- **C2.** For every fixed-allotment budget with allotment `a > 0`
(and in fact for every allotment), the effective time control is
exactly `a * 1000`, whichever side is to move. -/
theorem timeControl_fixed_correct (turn : Bool) (a : ℚ) (_h : 0 < a) :
    timeControl turn (.fixed a) = a * 1000 := rfl

/-- Witness for C2 at `a = 5`. -/
theorem timeControl_fixed_correct_witness :
    (0 : ℚ) < 5 ∧ timeControl true (.fixed 5) = 5 * 1000 :=
  ⟨by norm_num, timeControl_fixed_correct true 5 (by norm_num)⟩

lemma scanFrom_eq_none (out : List PyStr) :
    ∀ k, (∀ j, 1 ≤ j → j ≤ k →
        playedMark.isPrefixOf (out.getD j []) = false) →
      scanFrom out k = none := by
  intro k
  induction k with
  | zero => intro _; rfl
  | succ i ih =>
    intro h
    rw [scanFrom, h (i + 1) (by omega) le_rfl]
    simp only [Bool.false_eq_true, if_false]
    exact ih fun j h1 h2 => h j h1 (by omega)

lemma scanFrom_eq_some (out : List PyStr) :
    ∀ k i, 1 ≤ i → i ≤ k →
      playedMark.isPrefixOf (out.getD i []) = true →
      (∀ j, i < j → j ≤ k →
        playedMark.isPrefixOf (out.getD j []) = false) →
      scanFrom out k = some (pyStrip ((out.getD i []).drop 16)) := by
  intro k
  induction k with
  | zero => intro i h1 h2; omega
  | succ n ih =>
    intro i h1 h2 hs hmax
    rcases Nat.eq_or_lt_of_le h2 with heq | hlt
    · subst heq
      rw [scanFrom, if_pos hs]
    · have hne : playedMark.isPrefixOf (out.getD (n + 1) []) = false :=
        hmax (n + 1) (by omega) le_rfl
      rw [scanFrom, hne]
      simp only [Bool.false_eq_true, if_false]
      exact ih i h1 (by omega) hs fun j hj1 hj2 => hmax j hj1 (by omega)

lemma parseMove_eq_some (out : List PyStr) (i : Nat) (h1 : 1 ≤ i)
    (h2 : i < out.length)
    (hs : playedMark.isPrefixOf (out.getD i []) = true)
    (hmax : ∀ j, i < j → j < out.length →
      playedMark.isPrefixOf (out.getD j []) = false) :
    parseMove out = some (pyStrip ((out.getD i []).drop 16)) :=
  scanFrom_eq_some out (out.length - 1) i h1 (by omega) hs
    fun j hj1 hj2 => hmax j hj1 (by omega)

lemma parseMove_eq_none (out : List PyStr)
    (h : ∀ j, 1 ≤ j → j < out.length →
      playedMark.isPrefixOf (out.getD j []) = false) :
    parseMove out = none := by
  refine scanFrom_eq_none out (out.length - 1) fun j h1 h2 => ?_
  by_cases hj : j < out.length
  · exact h j h1 hj
  · rw [List.getD_eq_default out _ (by omega)]
    rfl

/-- **C3 counterexample.** A played line sitting at the very first line
of the response file is never recognized: the scan
`range(len(out) - 1, 0, -1)` stops at index 1, so a one-line file (and
a file whose only played line is line 0) parses to `none`, where the
claim requires the move `e2e4` to be found. -/
theorem parseMove_first_line_missed :
    parseMove ["COMPUTER PLAYED e2e4\n".data] = none ∧
    parseMove ["COMPUTER PLAYED e2e4\n".data, "id name Engine\n".data] =
      none := by
  constructor <;> rfl

/-- **C3 amended.** The scan reads all lines backward from the last,
but stops before the first line: the latest played line at any index
`≥ 1` yields the token (text after character offset 16, trimmed), the
two-line file `e2e4` then `e7e5` parses to `e7e5`, and a file whose
played lines all sit at index 0 parses to `none` (the first line is
never examined). -/
theorem parseMove_amended :
    parseMove ["COMPUTER PLAYED e2e4\n".data, "COMPUTER PLAYED e7e5\n".data] =
      some "e7e5".data ∧
    (∀ (out : List PyStr) (i : Nat), 1 ≤ i → i < out.length →
      playedMark.isPrefixOf (out.getD i []) = true →
      (∀ j, i < j → j < out.length →
        playedMark.isPrefixOf (out.getD j []) = false) →
      parseMove out = some (pyStrip ((out.getD i []).drop 16))) ∧
    (∀ out : List PyStr,
      (∀ j, 1 ≤ j → j < out.length →
        playedMark.isPrefixOf (out.getD j []) = false) →
      parseMove out = none) :=
  ⟨by decide, parseMove_eq_some, parseMove_eq_none⟩

/-- Witness for C3 (amended): the general last-match rule applied at a
concrete two-line file whose played line is the last line. -/
theorem parseMove_amended_witness :
    parseMove ["id name Engine\n".data, "COMPUTER PLAYED d2d4\n".data] =
      some "d2d4".data := by
  have h := parseMove_amended.2.1
    ["id name Engine\n".data, "COMPUTER PLAYED d2d4\n".data]
    1 (by omega) (by decide) (by decide)
    (fun j hj1 hj2 => by
      simp only [List.length_cons, List.length_nil] at hj2
      omega)
  exact h.trans (by decide)

/-- **C4 counterexample.** A response file whose last (and only) played
line is exactly `COMPUTER PLAYED RESIGN` but sits at the first line is
*not* reported as resignation: the backward scan never examines index
0, the token is `None`, and the call fails instead of returning
`resigned = true`. -/
theorem resign_on_first_line_missed :
    searchInterpret sanStub uciStub 0
      ["COMPUTER PLAYED RESIGN\n".data, "bye\n".data] =
      .error .noMoveLine := rfl

/-- **C4 amended.** For every response file whose last played line is
exactly `COMPUTER PLAYED RESIGN` *at a line index ≥ 1*, the driver
returns `resigned = true` with no move and the board untouched,
regardless of any other non-matching lines in the file; resignation is
a valid terminal decision, not an error. -/
theorem resign_detected_amended {Board Move : Type}
    (push_san push_uci : Board → PyStr → Option (Move × Board))
    (board : Board) (out : List PyStr) (i : Nat)
    (h1 : 1 ≤ i) (h2 : i < out.length)
    (hline : out.getD i [] = "COMPUTER PLAYED RESIGN\n".data ∨
      out.getD i [] = "COMPUTER PLAYED RESIGN".data)
    (hmax : ∀ j, i < j → j < out.length →
      playedMark.isPrefixOf (out.getD j []) = false) :
    searchInterpret push_san push_uci board out =
      .ok (⟨none, none, true⟩, board) := by
  have hs : playedMark.isPrefixOf (out.getD i []) = true := by
    rcases hline with h | h <;> rw [h] <;> decide
  have hp := parseMove_eq_some out i h1 h2 hs hmax
  have htok : pyStrip ((out.getD i []).drop 16) = "RESIGN".data := by
    rcases hline with h | h <;> rw [h] <;> decide
  unfold searchInterpret
  rw [hp, htok]
  rfl

/-- Witness for C4 (amended): a concrete file with a diagnostic first
line and the resignation line last; the board (here the ply counter
`7`) is returned unchanged. -/
theorem resign_detected_amended_witness :
    searchInterpret sanStub uciStub 7
      ["id name Engine\n".data, "COMPUTER PLAYED RESIGN\n".data] =
      .ok (⟨none, none, true⟩, 7) :=
  resign_detected_amended sanStub uciStub 7 _ 1 (by omega) (by decide)
    (Or.inl (by decide))
    (fun j hj1 hj2 => by
      simp only [List.length_cons, List.length_nil] at hj2
      omega)

/-- **C5.** A response file none of whose lines carries the played-move
mark makes the call fail with the (modelled) protocol parse error — the
move token is `None`, `board.push_san(None)` raises — and the driver
neither returns a silent no-op result nor reports resignation. -/
theorem no_played_line_is_error {Board Move : Type}
    (push_san push_uci : Board → PyStr → Option (Move × Board))
    (board : Board) (out : List PyStr)
    (h : ∀ l ∈ out, playedMark.isPrefixOf l = false) :
    searchInterpret push_san push_uci board out = .error .noMoveLine := by
  have hp : parseMove out = none := by
    refine parseMove_eq_none out fun j h1 h2 => ?_
    have hg : out.getD j [] = out[j] := by
      rw [List.getD_eq_getElem?_getD, List.getElem?_eq_getElem h2]
      rfl
    rw [hg]
    exact h _ (List.getElem_mem h2)
  unfold searchInterpret
  rw [hp]
  rfl

/-- Witness for C5: a file holding only a diagnostic line. -/
theorem no_played_line_is_error_witness :
    searchInterpret sanStub uciStub 0 ["bestmove e2e4\n".data] =
      .error .noMoveLine :=
  no_played_line_is_error sanStub uciStub 0 _ (by decide)

/-- **C6.** For every non-resignation token the driver attempts the
rich/disambiguated (SAN) parse first — when it succeeds the compact
(UCI) parser is never consulted — retries as compact notation only when
the first attempt fails, propagates the error when both fail, and
consequently yields the same move object from the compact spelling as
from the rich spelling of the same move (notation-method
equivalence). -/
theorem applyToken_notation_fallback :
    (∀ (Board Move : Type)
      (push_san push_uci : Board → PyStr → Option (Move × Board))
      (board : Board) (t : PyStr) (m : Move) (b' : Board),
      t ≠ "RESIGN".data → push_san board t = some (m, b') →
      applyToken push_san push_uci board (some t) =
        .ok (⟨some m, none, false⟩, b')) ∧
    (∀ (Board Move : Type)
      (push_san push_uci : Board → PyStr → Option (Move × Board))
      (board : Board) (t : PyStr) (m : Move) (b' : Board),
      t ≠ "RESIGN".data → push_san board t = none →
      push_uci board t = some (m, b') →
      applyToken push_san push_uci board (some t) =
        .ok (⟨some m, none, false⟩, b')) ∧
    (∀ (Board Move : Type)
      (push_san push_uci : Board → PyStr → Option (Move × Board))
      (board : Board) (t : PyStr),
      t ≠ "RESIGN".data → push_san board t = none →
      push_uci board t = none →
      applyToken push_san push_uci board (some t) =
        .error .illegalMove) ∧
    (∀ (Board Move : Type)
      (push_san push_uci : Board → PyStr → Option (Move × Board))
      (board : Board) (rich compact : PyStr) (m : Move) (b' : Board),
      rich ≠ "RESIGN".data → compact ≠ "RESIGN".data →
      push_san board rich = some (m, b') →
      (push_san board compact = some (m, b') ∨
        (push_san board compact = none ∧
          push_uci board compact = some (m, b'))) →
      applyToken push_san push_uci board (some compact) =
        applyToken push_san push_uci board (some rich)) := by
  have hsan : ∀ (Board Move : Type)
      (push_san push_uci : Board → PyStr → Option (Move × Board))
      (board : Board) (t : PyStr) (m : Move) (b' : Board),
      t ≠ "RESIGN".data → push_san board t = some (m, b') →
      applyToken push_san push_uci board (some t) =
        .ok (⟨some m, none, false⟩, b') := by
    intro B M ps pu board t m b' ht hps
    simp only [applyToken, if_neg ht, hps]
  have huci : ∀ (Board Move : Type)
      (push_san push_uci : Board → PyStr → Option (Move × Board))
      (board : Board) (t : PyStr) (m : Move) (b' : Board),
      t ≠ "RESIGN".data → push_san board t = none →
      push_uci board t = some (m, b') →
      applyToken push_san push_uci board (some t) =
        .ok (⟨some m, none, false⟩, b') := by
    intro B M ps pu board t m b' ht hps hpu
    simp only [applyToken, if_neg ht, hps, hpu]
  refine ⟨hsan, huci, ?_, ?_⟩
  · intro B M ps pu board t ht hps hpu
    simp only [applyToken, if_neg ht, hps, hpu]
  · intro B M ps pu board rich compact m b' hr hc hrich hcomp
    rcases hcomp with hcs | ⟨hcn, hcu⟩
    · rw [hsan B M ps pu board compact m b' hc hcs,
        hsan B M ps pu board rich m b' hr hrich]
    · rw [huci B M ps pu board compact m b' hc hcn hcu,
        hsan B M ps pu board rich m b' hr hrich]

/-- Witness for C6 at the knight move `Nf3`/`g1f3` against the stub
library: the driver's result from the compact spelling equals the
result from the rich spelling. -/
theorem applyToken_notation_fallback_witness :
    applyToken sanStub uciStub 0 (some "g1f3".data) =
      applyToken sanStub uciStub 0 (some "Nf3".data) :=
  applyToken_notation_fallback.2.2.2 Nat PyStr sanStub uciStub 0
    "Nf3".data "g1f3".data "g1f3".data 1 (by decide) (by decide)
    (by decide) (Or.inr ⟨by decide, by decide⟩)

/-- **C10.** `Engine.search` mutates the caller's position: when the
parsed token is a normal move, the board returned alongside the
decision is the board produced by the successful push (one ply
advanced) and the decision carries the pushed move; when the token is
the resignation sentinel, the board is returned unchanged. -/
theorem search_board_effect {Board Move : Type}
    (push_san push_uci : Board → PyStr → Option (Move × Board))
    (board : Board) (out : List PyStr) :
    (parseMove out = some "RESIGN".data →
      searchInterpret push_san push_uci board out =
        .ok (⟨none, none, true⟩, board)) ∧
    (∀ (t : PyStr) (m : Move) (b' : Board),
      parseMove out = some t → t ≠ "RESIGN".data →
      push_san board t = some (m, b') →
      searchInterpret push_san push_uci board out =
        .ok (⟨some m, none, false⟩, b')) ∧
    (∀ (t : PyStr) (m : Move) (b' : Board),
      parseMove out = some t → t ≠ "RESIGN".data →
      push_san board t = none → push_uci board t = some (m, b') →
      searchInterpret push_san push_uci board out =
        .ok (⟨some m, none, false⟩, b')) := by
  refine ⟨?_, ?_, ?_⟩
  · intro hp
    unfold searchInterpret
    rw [hp]
    rfl
  · intro t m b' hp ht hps
    unfold searchInterpret
    rw [hp]
    simp only [applyToken, if_neg ht, hps]
  · intro t m b' hp ht hps hpu
    unfold searchInterpret
    rw [hp]
    simp only [applyToken, if_neg ht, hps, hpu]

/-- Witness for C10: a concrete response naming `Nf3` advances the stub
board from ply 3 to ply 4 and returns the pushed move. -/
theorem search_board_effect_witness :
    searchInterpret sanStub uciStub 3
      ["id name Engine\n".data, "COMPUTER PLAYED Nf3\n".data] =
      .ok (⟨some "g1f3".data, none, false⟩, 4) :=
  (search_board_effect sanStub uciStub 3
    ["id name Engine\n".data, "COMPUTER PLAYED Nf3\n".data]).2.1
    "Nf3".data "g1f3".data 4 (by decide) (by decide) (by decide)

/-- **C7 counterexample.** The request document actually written is not
"exactly four newline-terminated lines": the final `quit` directive
carries no trailing newline (`f.write(... 'go ...\nquit')`), so at a
concrete time control and position the document differs from the
all-newline-terminated document the claim describes. -/
theorem requestDoc_not_all_terminated :
    requestDoc "96".data "x".data ≠
      requestDocAllTerminated "96".data "x".data := by decide

lemma table_size_line_split :
    ("setoption table_size 69696983\n".data : PyStr) =
      "setoption table_size 69696983".data ++ "\n".data := rfl

lemma quit_tail_split :
    ("\nquit".data : PyStr) = "\n".data ++ "quit".data := rfl

/-- **C7 amended.** On every call the request document consists of
exactly the four directives of the claim, in that order, joined by
newlines: the first three lines are newline-terminated while the final
`quit` directive is not (the document is the four lines interleaved
with `\n`, and the fully newline-terminated document of the spec is
this document plus one trailing newline). -/
theorem requestDoc_amended (tc fen : PyStr) :
    requestDoc tc fen = List.intercalate "\n".data (requestLines tc fen) ∧
    requestDocAllTerminated tc fen = requestDoc tc fen ++ "\n".data := by
  constructor
  · rw [requestDoc, table_size_line_split, quit_tail_split]
    simp [requestLines, List.intercalate, List.intersperse,
      List.append_assoc]
  · rw [requestDocAllTerminated, requestDoc, table_size_line_split,
      quit_tail_split]
    simp [requestLines, List.append_assoc]

lemma toDigitsCore_acc (fuel : Nat) :
    ∀ (n : Nat) (ds : List Char),
      Nat.toDigitsCore 10 fuel n ds = Nat.toDigitsCore 10 fuel n [] ++ ds := by
  induction fuel with
  | zero => intro n ds; simp [Nat.toDigitsCore]
  | succ f ih =>
    intro n ds
    simp only [Nat.toDigitsCore]
    by_cases h : n / 10 = 0
    · simp [h]
    · rw [if_neg h, if_neg h, ih (n / 10) (Nat.digitChar (n % 10) :: ds),
        ih (n / 10) [Nat.digitChar (n % 10)]]
      simp

lemma toDigitsCore_fuel (fuel : Nat) :
    ∀ (fuel' n : Nat), n < fuel → n < fuel' →
      Nat.toDigitsCore 10 fuel n [] = Nat.toDigitsCore 10 fuel' n [] := by
  induction fuel with
  | zero => intro fuel' n h; omega
  | succ f ih =>
    intro fuel' n h h'
    cases fuel' with
    | zero => omega
    | succ f' =>
      simp only [Nat.toDigitsCore]
      by_cases hz : n / 10 = 0
      · simp [hz]
      · rw [if_neg hz, if_neg hz, toDigitsCore_acc f (n / 10) _,
          toDigitsCore_acc f' (n / 10) _]
        have hd : n / 10 < n := by omega
        rw [ih f' (n / 10) (by omega) (by omega)]

lemma toDigits_step (n : Nat) (h : 10 ≤ n) :
    Nat.toDigits 10 n =
      Nat.toDigits 10 (n / 10) ++ [Nat.digitChar (n % 10)] := by
  have hz : ¬ n / 10 = 0 := by omega
  have h1 : Nat.toDigits 10 n =
      Nat.toDigitsCore 10 n (n / 10) [Nat.digitChar (n % 10)] := by
    unfold Nat.toDigits
    simp only [Nat.toDigitsCore]
    rw [if_neg hz]
  rw [h1, toDigitsCore_acc n (n / 10) _,
    toDigitsCore_fuel n (n / 10 + 1) (n / 10) (by omega) (by omega)]
  rfl

lemma toDigits_single (n : Nat) (h : n < 10) :
    Nat.toDigits 10 n = [Nat.digitChar n] := by
  unfold Nat.toDigits
  simp only [Nat.toDigitsCore]
  have hz : n / 10 = 0 := by omega
  rw [if_pos hz, Nat.mod_eq_of_lt h]

lemma digitVal_digitChar (n : Nat) (h : n < 10) :
    digitVal (Nat.digitChar n) = n := by
  interval_cases n <;> decide

lemma digitsVal_append_digit (l : List Char) (c : Char) :
    digitsVal (l ++ [c]) = digitsVal l * 10 + digitVal c := by
  unfold digitsVal
  rw [List.foldl_append]
  rfl

lemma digitsVal_toDigits (n : Nat) : digitsVal (Nat.toDigits 10 n) = n := by
  induction n using Nat.strong_induction_on with
  | _ n ih =>
    by_cases h : n < 10
    · rw [toDigits_single n h]
      unfold digitsVal
      simp [digitVal_digitChar n h]
    · push_neg at h
      rw [toDigits_step n h, digitsVal_append_digit,
        ih (n / 10) (by omega), digitVal_digitChar (n % 10) (by omega)]
      omega

lemma toDigits_injective {m n : Nat}
    (h : Nat.toDigits 10 m = Nat.toDigits 10 n) : m = n := by
  have hm := digitsVal_toDigits m
  rw [h, digitsVal_toDigits n] at hm
  omega

lemma fileIn_injective {s t : EngineState} (h : fileIn s = fileIn t) :
    s.move = t.move := by
  unfold fileIn at h
  have h2 : "temp/input-".data ++ Nat.toDigits 10 s.move =
      "temp/input-".data ++ Nat.toDigits 10 t.move :=
    List.append_cancel_right h
  exact toDigits_injective (List.append_cancel_left h2)

lemma fileOut_injective {s t : EngineState} (h : fileOut s = fileOut t) :
    s.move = t.move := by
  unfold fileOut at h
  have h2 : "temp/output-".data ++ Nat.toDigits 10 s.move =
      "temp/output-".data ++ Nat.toDigits 10 t.move :=
    List.append_cancel_right h
  exact toDigits_injective (List.append_cancel_left h2)

/-- **C8.** The per-driver move counter starts at 0 at construction
and is incremented exactly once per `search` call, so two consecutive
calls on the same instance use strictly increasing integer suffixes
and hence distinct input and output file names. -/
theorem move_counter_correct :
    engineInit.move = 0 ∧
    (∀ s : EngineState, ((searchStep s).2).move = s.move + 1) ∧
    (∀ s : EngineState, s.move < ((searchStep s).2).move) ∧
    (∀ s : EngineState,
      fileIn s ≠ fileIn (searchStep s).2 ∧
      fileOut s ≠ fileOut (searchStep s).2) := by
  refine ⟨rfl, fun s => rfl, fun s => Nat.lt_succ_self _, fun s => ⟨?_, ?_⟩⟩
  · intro h
    have := fileIn_injective h
    simp only [searchStep] at this
    omega
  · intro h
    have := fileOut_injective h
    simp only [searchStep] at this
    omega

/-- **C9 counterexample.** The relay's catch-all does not cover every
method name: the names found by ordinary attribute lookup never reach
`__getattr__`.  Invoking `filler.id(...)` calls the `id` dict set in
`__init__`, which is not callable — the call raises instead of
forwarding to `notify`. -/
theorem filler_defined_attr_raises :
    callPyAttr (fillerGetattr classAttrsStub (@traceNotify Nat) "id".data)
      [] = .error .notCallable := rfl

/-- **C9 amended.** For every method name that ordinary attribute
lookup does *not* find — neither an instance attribute set in
`__init__` (`id`, `name`, `main_engine`) nor an attribute of the class
or its bases (`__init__`, `__getattr__`, the dunders inherited from
`object`) — invoking that named method with any arguments never raises
and results in exactly one call to the owner's `notify` with that name
and those arguments (the singleton trace when `notify` records its
calls).  Names that ordinary lookup does find are served by ordinary
lookup, untouched by the catch-all: the forwarding closure and `notify`
are never consulted for them. -/
theorem filler_relay_amended :
    (∀ (Arg Res : Type) (classAttrs : PyStr → Option (PyAttr Arg Res))
      (notify : PyStr → List Arg → Res) (attr : PyStr) (args : List Arg),
      attr ≠ "id".data → attr ≠ "name".data → attr ≠ "main_engine".data →
      classAttrs attr = none →
      callPyAttr (fillerGetattr classAttrs notify attr) args =
        .ok (notify attr args)) ∧
    (∀ (Arg : Type)
      (classAttrs : PyStr → Option (PyAttr Arg (List (PyStr × List Arg))))
      (attr : PyStr) (args : List Arg),
      attr ≠ "id".data → attr ≠ "name".data → attr ≠ "main_engine".data →
      classAttrs attr = none →
      callPyAttr (fillerGetattr classAttrs (@traceNotify Arg) attr) args =
        .ok [(attr, args)]) ∧
    (∀ (Arg Res : Type) (classAttrs : PyStr → Option (PyAttr Arg Res))
      (notify : PyStr → List Arg → Res) (attr : PyStr) (a : PyAttr Arg Res),
      attr ≠ "id".data → attr ≠ "name".data → attr ≠ "main_engine".data →
      classAttrs attr = some a →
      fillerGetattr classAttrs notify attr = a) := by
  have hfwd : ∀ (Arg Res : Type) (classAttrs : PyStr → Option (PyAttr Arg Res))
      (notify : PyStr → List Arg → Res) (attr : PyStr) (args : List Arg),
      attr ≠ "id".data → attr ≠ "name".data → attr ≠ "main_engine".data →
      classAttrs attr = none →
      callPyAttr (fillerGetattr classAttrs notify attr) args =
        .ok (notify attr args) := by
    intro Arg Res classAttrs notify attr args h1 h2 h3 h4
    rw [fillerGetattr, if_neg h1, if_neg h2, if_neg h3, h4]
    rfl
  refine ⟨hfwd, fun Arg classAttrs attr args h1 h2 h3 h4 =>
    hfwd Arg _ classAttrs (@traceNotify Arg) attr args h1 h2 h3 h4, ?_⟩
  intro Arg Res classAttrs notify attr a h1 h2 h3 h4
  rw [fillerGetattr, if_neg h1, if_neg h2, if_neg h3, h4]

/-- Witness for C9 (amended): against the concrete class-attribute
table, invoking `ping(3)` on the relay forwards exactly one
`notify("ping", [3])` call and does not raise. -/
theorem filler_relay_amended_witness :
    callPyAttr (fillerGetattr classAttrsStub (@traceNotify Nat)
      "ping".data) [3] = .ok [("ping".data, [3])] :=
  filler_relay_amended.2.1 Nat classAttrsStub "ping".data [3]
    (by decide) (by decide) (by decide) rfl

end LichessBot
